import Mathlib

/-!
Verification of the `watch` firmware (STM32L0 digital wristwatch) against its
natural-language specification.  The Rust source is shallowly embedded:
machine integers become `ℕ` with explicit `% 2^16` (u16) or `% 2^64` (usize)
where wrap-around matters, register files become explicit structures, and
fallible operations (Rust panics such as division by zero) return `Except`.
-/

/-- Modulus of the 16-bit machine integers (`u16`). -/
def U16MOD : ℕ := 65536

/-- Modulus of the 64-bit machine integers (`usize` on the host model). -/
def U64MOD : ℕ := 18446744073709551616

/-- Wrapping `u16` subtraction `a - b` for `a b < 2^16`
(release-mode two's-complement wrap). -/
def wsub16 (a b : ℕ) : ℕ := (a + U16MOD - b) % U16MOD

/-- `src/src/measurement.rs`, `impl From<u16> for Temperature`:
`cal_gradient = (130 - 30) / (ts_cal2 - ts_cal1)` and
`cal_gradient * (raw - ts_cal1) + 30`, all in `u16` arithmetic
(wrapping at `2^16`), with truncating integer division.
`tsCal1`/`tsCal2` are the factory calibration readings at 30 °C / 130 °C. -/
def temperatureFrom (tsCal1 tsCal2 raw : ℕ) : ℕ :=
  let calGradient := (130 - 30) / wsub16 tsCal2 tsCal1
  (calGradient % U16MOD * (wsub16 raw tsCal1) % U16MOD + 30) % U16MOD

/-- `src/hal/src/adc.rs`: `VREFINT_CAL_VREF = 3000` (mV). -/
def VREFINT_CAL_VREF : ℕ := 3000

/-- `src/hal/src/adc.rs`, `AdcMeasurement::voltage`:
`VREFINT_VREF_BY_CAL / vrefint` with `VREFINT_VREF_BY_CAL = 3000 * VREFINT_CAL`,
`usize` floor division.  `vrefintCal` is the factory `VREFINT_CAL` word (a u16).
Rust `usize` division by zero panics, embedded as the `error` branch. -/
def adcVoltage (vrefintCal vrefint : ℕ) : Except Unit ℕ :=
  if vrefint = 0 then .error ()
  else .ok (VREFINT_CAL_VREF * vrefintCal / vrefint)

/-- C1 counterexample: with factory points `(30 °C, R1 = 10)`, `(130 °C, R2 = 40)`
the truncating gradient is `100 / 30 = 3`, so `temperature(R2) = 3*30 + 30 = 120`,
not `130` as the claim asserts (while `temperature(R1) = 30` does hold). -/
theorem temperature_endpoint_counterexample :
    temperatureFrom 10 40 10 = 30 ∧
    temperatureFrom 10 40 40 = 120 ∧
    temperatureFrom 10 40 40 ≠ 130 := by
  refine ⟨by decide, by decide, by decide⟩

/-- In-range unfolding: for `cal1 ≤ raw`, `cal1 < cal2 < 2^16`, `raw < 2^16`,
the wrapping `u16` subtractions are exact. -/
theorem wsub16_eq_sub (a b : ℕ) (hb : b ≤ a) (ha : a < U16MOD) :
    wsub16 a b = a - b := by
  unfold wsub16 U16MOD
  unfold U16MOD at ha
  omega

/-- Helper: the truncating gradient never overshoots: `(100 / d) * r ≤ 100` for `r ≤ d`. -/
theorem grad_mul_le (d r : ℕ) (hr : r ≤ d) :
    100 / d * r ≤ 100 := by
  calc 100 / d * r ≤ 100 / d * d := Nat.mul_le_mul_left _ hr
  _ ≤ 100 := Nat.div_mul_le_self 100 d

/-- C1 (amended).  For factory calibration points `(30 °C, R1)`, `(130 °C, R2)` with
`R1 < R2 < 2^16` the conversion satisfies `temperature(R1) = 30` and is monotone
on `[R1, R2]` unconditionally; the endpoint identity `temperature(R2) = 130`
holds provided the span `R2 - R1` divides `100` (without that divisibility the
truncating gradient loses that endpoint, see the counterexample). -/
theorem temperature_calibration_points (cal1 cal2 r r' : ℕ)
    (h12 : cal1 < cal2) (h2 : cal2 < U16MOD)
    (hr1 : cal1 ≤ r) (hrr : r ≤ r') (hr2 : r' ≤ cal2) :
    temperatureFrom cal1 cal2 cal1 = 30 ∧
    temperatureFrom cal1 cal2 r ≤ temperatureFrom cal1 cal2 r' ∧
    ((cal2 - cal1) ∣ 100 → temperatureFrom cal1 cal2 cal2 = 130) := by
  have hd : 0 < cal2 - cal1 := by omega
  have hsub : wsub16 cal2 cal1 = cal2 - cal1 := wsub16_eq_sub _ _ (le_of_lt h12) h2
  have hval : ∀ x, cal1 ≤ x → x ≤ cal2 →
      temperatureFrom cal1 cal2 x = 100 / (cal2 - cal1) * (x - cal1) + 30 := by
    intro x hx1 hx2
    unfold temperatureFrom
    rw [hsub, wsub16_eq_sub x cal1 hx1 (lt_of_le_of_lt hx2 h2)]
    have hb : 100 / (cal2 - cal1) * (x - cal1) ≤ 100 :=
      grad_mul_le _ _ (by omega)
    have h100 : (130 - 30 : ℕ) = 100 := by norm_num
    simp only [h100]
    rw [Nat.mod_eq_of_lt (a := 100 / (cal2 - cal1)) (by
      have := Nat.div_le_self 100 (cal2 - cal1)
      unfold U16MOD; omega)]
    rw [Nat.mod_eq_of_lt (a := 100 / (cal2 - cal1) * (x - cal1)) (by unfold U16MOD; omega)]
    rw [Nat.mod_eq_of_lt (by unfold U16MOD; omega)]
  refine ⟨?_, ?_, ?_⟩
  · rw [hval cal1 le_rfl (le_of_lt h12)]; simp
  · rw [hval r hr1 (le_trans hrr hr2), hval r' (le_trans hr1 hrr) hr2]
    have : 100 / (cal2 - cal1) * (r - cal1) ≤ 100 / (cal2 - cal1) * (r' - cal1) :=
      Nat.mul_le_mul_left _ (by omega)
    omega
  · intro hdvd
    rw [hval cal2 (le_of_lt h12) le_rfl, Nat.div_mul_cancel hdvd]

/-- Witness for `temperature_calibration_points` at `R1 = 100`, `R2 = 150`
(`span 50 ∣ 100`, so the 130 °C endpoint implication also fires),
samples `r = 110 ≤ r' = 140`. -/
theorem temperature_calibration_points_witness :
    temperatureFrom 100 150 100 = 30 ∧
    temperatureFrom 100 150 110 ≤ temperatureFrom 100 150 140 ∧
    temperatureFrom 100 150 150 = 130 :=
  have h := temperature_calibration_points 100 150 110 140 (by decide) (by decide)
    (by decide) (by decide) (by decide)
  ⟨h.1, h.2.1, h.2.2 (by decide)⟩

/-- C4: for every nonzero raw reference sample, the voltage conversion returns
exactly `(3000 * VREF_CAL) / vrefint_raw` with floor division: the result `q`
is characterised by `q * vrefint ≤ 3000 * cal < (q + 1) * vrefint`,
i.e. the quotient truncates toward zero. -/
theorem adcVoltage_floor (cal vrefint : ℕ) (h : 1 ≤ vrefint) :
    adcVoltage cal vrefint = .ok (3000 * cal / vrefint) ∧
    3000 * cal / vrefint * vrefint ≤ 3000 * cal ∧
    3000 * cal < (3000 * cal / vrefint + 1) * vrefint := by
  have hz : vrefint ≠ 0 := by omega
  refine ⟨?_, ?_, ?_⟩
  · unfold adcVoltage VREFINT_CAL_VREF
    simp [hz]
  · exact Nat.div_mul_le_self _ _
  · have hmod := Nat.mod_lt (3000 * cal) (show 0 < vrefint by omega)
    have hdiv := Nat.div_add_mod (3000 * cal) vrefint
    calc 3000 * cal = vrefint * (3000 * cal / vrefint) + 3000 * cal % vrefint :=
          hdiv.symm
      _ < vrefint * (3000 * cal / vrefint) + vrefint := by omega
      _ = (3000 * cal / vrefint + 1) * vrefint := by ring

/-- Witness for `adcVoltage_floor` at `VREF_CAL = 1670`, `vrefint_raw = 1700`
(a boundary value where the quotient truncates: `5010000 / 1700 = 2947.05…`). -/
theorem adcVoltage_floor_witness :
    adcVoltage 1670 1700 = .ok (3000 * 1670 / 1700) ∧
    3000 * 1670 / 1700 * 1700 ≤ 3000 * 1670 ∧
    3000 * 1670 < (3000 * 1670 / 1700 + 1) * 1700 :=
  adcVoltage_floor 1670 1700 (by decide)

/-- C10: the voltage conversion has no zero guard in the source; in the
embedding it is total (returns `.ok`) exactly on `vrefint_raw ≥ 1`, and at
`vrefint_raw = 0` the division has no defined result (error branch taken). -/
theorem adcVoltage_zero_guard (cal vrefint : ℕ) :
    (1 ≤ vrefint → adcVoltage cal vrefint = .ok (3000 * cal / vrefint)) ∧
    adcVoltage cal 0 = .error () := by
  constructor
  · intro h
    unfold adcVoltage VREFINT_CAL_VREF
    simp [show vrefint ≠ 0 by omega]
  · unfold adcVoltage
    simp

/-- Witness for `adcVoltage_zero_guard` at `cal = 1670`, `vrefint = 1500`. -/
theorem adcVoltage_zero_guard_witness :
    adcVoltage 1670 1500 = .ok (3000 * 1670 / 1500) ∧ adcVoltage 1670 0 = .error () :=
  ⟨(adcVoltage_zero_guard 1670 1500).1 (by decide), (adcVoltage_zero_guard 1670 0).2⟩

/-! ## RTC register model (`src/hal/src/rtc.rs`) -/

/-- One read of the RTC time register `TR` (BCD digit fields `ht hu mnt mnu st su`),
mirroring `stm32l0::rtc::tr::R`. -/
structure TrReg where
  ht : ℕ
  hu : ℕ
  mnt : ℕ
  mnu : ℕ
  st : ℕ
  su : ℕ
deriving DecidableEq

/-- `src/hal/src/rtc.rs`, `pub struct Time`: six independent BCD digit fields. -/
structure RtcTime where
  hour_tens : ℕ
  hour_units : ℕ
  minute_tens : ℕ
  minute_units : ℕ
  seconds_tens : ℕ
  seconds_units : ℕ
deriving DecidableEq

/-- The RTC register file: time register, the `ISR` bits the driver touches,
and backup register 0 (the calibration persistence slot in the always-powered
backup domain). -/
structure RtcRegs where
  tr : TrReg
  isrInit : Bool
  isrInitf : Bool
  isrWutf : Bool
  bkpr0 : ℕ
deriving DecidableEq

/-- `Rtc::set_adc_calibration` (available for any state tag `S`):
writes the 8-bit factor, widened `as u32`, into backup register 0. -/
def setAdcCalibration (c : ℕ) (s : RtcRegs) : RtcRegs :=
  { s with bkpr0 := c % 4294967296 }

/-- `Rtc::get_adc_calibration` (any state tag `S`): reads backup register 0
and truncates `as u8`. -/
def getAdcCalibration (s : RtcRegs) : ℕ := s.bkpr0 % 256

/-- `Rtc::<Init>::set_time`: writes the six BCD digits into `TR`. -/
def rtcSetTime (t : RtcTime) (s : RtcRegs) : RtcRegs :=
  { s with tr := { ht := t.hour_tens, hu := t.hour_units,
                   mnt := t.minute_tens, mnu := t.minute_units,
                   st := t.seconds_tens, su := t.seconds_units } }

/-- `From<Rtc<Run>> for Rtc<Init>`: sets the `INIT` bit, then spins until the
hardware confirms with `INITF` (modelled as the flag becoming set). -/
def rtcEnterInit (s : RtcRegs) : RtcRegs :=
  { s with isrInit := true, isrInitf := true }

/-- `From<Rtc<Init>> for Rtc<Run>`: clears `INIT`, spins until `INITF` clears. -/
def rtcEnterRun (s : RtcRegs) : RtcRegs :=
  { s with isrInit := false, isrInitf := false }

/-- `Rtc::<Run>::isr_wakeup`: reads `WUTF` and clears it when set. -/
def rtcIsrWakeup (s : RtcRegs) : RtcRegs :=
  if s.isrWutf then { s with isrWutf := false } else s

/-- The RTC operations other than `set_adc_calibration` — every driver
operation that leaves the backup-domain register alone.  `readTime` covers the
pure reads (`time` / `read_tr`); `stopCycle` models a deep-sleep (STOP mode)
cycle, which powers everything down except the backup domain and the running
RTC, hence is the identity on the retained register file. -/
inductive RtcPreservingOp where
  | setTime (t : RtcTime)
  | enterInit
  | enterRun
  | isrWakeup
  | readTime
  | stopCycle

/-- Interpretation of the backup-preserving operations on the register file. -/
def applyRtcOp : RtcPreservingOp → RtcRegs → RtcRegs
  | .setTime t, s => rtcSetTime t s
  | .enterInit, s => rtcEnterInit s
  | .enterRun, s => rtcEnterRun s
  | .isrWakeup, s => rtcIsrWakeup s
  | .readTime, s => s
  | .stopCycle, s => s

/-- Folding a whole sequence of backup-preserving operations. -/
def applyRtcOps (ops : List RtcPreservingOp) (s : RtcRegs) : RtcRegs :=
  ops.foldl (fun s op => applyRtcOp op s) s

/-- No backup-preserving operation changes backup register 0. -/
theorem applyRtcOp_bkpr0 (op : RtcPreservingOp) (s : RtcRegs) :
    (applyRtcOp op s).bkpr0 = s.bkpr0 := by
  cases op <;> simp [applyRtcOp, rtcSetTime, rtcEnterInit, rtcEnterRun, rtcIsrWakeup]
  split <;> rfl

/-- Sequences of backup-preserving operations leave backup register 0 alone. -/
theorem applyRtcOps_bkpr0 (ops : List RtcPreservingOp) (s : RtcRegs) :
    (applyRtcOps ops s).bkpr0 = s.bkpr0 := by
  induction ops generalizing s with
  | nil => rfl
  | cons op ops ih =>
      unfold applyRtcOps at ih ⊢
      simp only [List.foldl_cons]
      rw [ih, applyRtcOp_bkpr0]

/-- C2: for every representable 8-bit factor `f`, storing it in the calibration
slot (backup register 0) and loading it back returns exactly `f`, for any state
tag (both `set` and `get` are defined on `impl<S> Rtc<S>` and the tag does not
enter the register model), and the value is unchanged by any intervening
sequence of backup-domain-preserving operations, including a deep-sleep cycle. -/
theorem calibration_roundtrip (f : ℕ) (hf : f < 256) (s : RtcRegs)
    (ops : List RtcPreservingOp) :
    getAdcCalibration (setAdcCalibration f s) = f ∧
    getAdcCalibration (applyRtcOps ops (setAdcCalibration f s)) = f := by
  have hmod : (f % 4294967296) % 256 = f := by omega
  constructor
  · unfold getAdcCalibration setAdcCalibration
    exact hmod
  · unfold getAdcCalibration
    rw [applyRtcOps_bkpr0]
    exact hmod

/-- Witness for `calibration_roundtrip`: factor `0xAB = 171`, an intervening
time-set, a full Init/Run excursion and a deep-sleep cycle. -/
theorem calibration_roundtrip_witness :
    getAdcCalibration (setAdcCalibration 171
      ⟨⟨0,0,0,0,0,0⟩, false, false, false, 0⟩) = 171 ∧
    getAdcCalibration (applyRtcOps
      [.enterInit, .setTime ⟨1,2,3,4,5,6⟩, .enterRun, .stopCycle, .isrWakeup, .readTime]
      (setAdcCalibration 171 ⟨⟨0,0,0,0,0,0⟩, false, false, false, 0⟩)) = 171 :=
  calibration_roundtrip 171 (by decide) ⟨⟨0,0,0,0,0,0⟩, false, false, false, 0⟩
    [.enterInit, .setTime ⟨1,2,3,4,5,6⟩, .enterRun, .stopCycle, .isrWakeup, .readTime]

/-! ## Typestate machines of the three peripheral drivers (C3)

Each driver's compile-time tag set and the impl block each public transition /
operation lives in are transcribed from the source; `configure` constructors fix
the initial tag (`Adc<Disabled>`, `Rtc<Run>`, `Buzzer<Stopped>`). -/

/-- ADC tags: `struct Disabled; struct Enabled;` (`src/hal/src/adc.rs`). -/
inductive AdcTag where
  | disabled
  | enabled
deriving DecidableEq

/-- The public ADC operations modelled by the claim. -/
inductive AdcOp where
  | enable
  | calibrate
  | adcMeasure
  | disable
deriving DecidableEq

/-- Which impl block each ADC operation sits in, and the tag it produces:
`enable`/`calibrate` on `impl Adc<Disabled>`, `disable`/`measure` on
`impl Adc<Enabled>`; `none` when the operation does not exist for the tag. -/
def adcNext : AdcTag → AdcOp → Option AdcTag
  | .disabled, .enable => some .enabled
  | .disabled, .calibrate => some .disabled
  | .enabled, .adcMeasure => some .enabled
  | .enabled, .disable => some .disabled
  | _, _ => none

/-- ADC tags reachable from the configured handle (`configure` returns
`Adc<Disabled>`) by the driver's own transitions. -/
inductive AdcReachable : AdcTag → Prop where
  | start : AdcReachable .disabled
  | step {t t' : AdcTag} {op : AdcOp} :
      AdcReachable t → adcNext t op = some t' → AdcReachable t'

/-- The claim's legality table for the ADC, transcribed from the spec's words:
measure and disable only on Enabled, enable and calibrate only on Disabled. -/
def adcSpecLegal : AdcTag → AdcOp → Bool
  | t, .adcMeasure => t = .enabled
  | t, .disable => t = .enabled
  | t, .enable => t = .disabled
  | t, .calibrate => t = .disabled

/-- RTC tags: `struct Init; struct Run;` (`src/hal/src/rtc.rs`). -/
inductive RtcTag where
  | run
  | rtcInit
deriving DecidableEq

/-- The public RTC operations modelled by the claim. -/
inductive RtcOp where
  | readTime
  | enterInit
  | setTime
  | enterRun
deriving DecidableEq

/-- Impl-block placement from the source: `time`/`init` on `impl Rtc<Run>`,
`set_time`/`run` on `impl Rtc<Init>`. -/
def rtcNext : RtcTag → RtcOp → Option RtcTag
  | .run, .readTime => some .run
  | .run, .enterInit => some .rtcInit
  | .rtcInit, .setTime => some .rtcInit
  | .rtcInit, .enterRun => some .run
  | _, _ => none

/-- RTC tags reachable from the configured handle (`configure` returns
`Rtc<Run>`). -/
inductive RtcReachable : RtcTag → Prop where
  | start : RtcReachable .run
  | step {t t' : RtcTag} {op : RtcOp} :
      RtcReachable t → rtcNext t op = some t' → RtcReachable t'

/-- The claim's legality table for the RTC: time and init only on Run,
set_time and run only on Init. -/
def rtcSpecLegal : RtcTag → RtcOp → Bool
  | t, .readTime => t = .run
  | t, .enterInit => t = .run
  | t, .setTime => t = .rtcInit
  | t, .enterRun => t = .rtcInit

/-- Buzzer tags: `pub struct Running; pub struct Stopped;` (`src/hal/src/buzzer.rs`). -/
inductive BuzzerTag where
  | stopped
  | running
deriving DecidableEq

/-- The buzzer transition operations modelled by the claim. -/
inductive BuzzerOp where
  | start
  | stop
deriving DecidableEq

/-- Impl-block placement from the source: `start` on `impl Buzzer<Stopped>`,
`stop` on `impl Buzzer<Running>`. -/
def buzzerNext : BuzzerTag → BuzzerOp → Option BuzzerTag
  | .stopped, .start => some .running
  | .running, .stop => some .stopped
  | _, _ => none

/-- Buzzer tags reachable from the configured handle (`configure` returns
`Buzzer<Stopped>`). -/
inductive BuzzerReachable : BuzzerTag → Prop where
  | start : BuzzerReachable .stopped
  | step {t t' : BuzzerTag} {op : BuzzerOp} :
      BuzzerReachable t → buzzerNext t op = some t' → BuzzerReachable t'

/-- The claim's legality table for the buzzer: start only on Stopped,
stop only on Running. -/
def buzzerSpecLegal : BuzzerTag → BuzzerOp → Bool
  | t, .start => t = .stopped
  | t, .stop => t = .running

/-- C3: on every reachable tag of each of the three drivers, the set of
invocable operations (those with a defined transition in the source's impl
blocks) is exactly the set the claim lists for that tag — in particular no
operation that is illegal for the current tag is reachable in any state. -/
theorem typestate_legal_ops :
    (∀ t, AdcReachable t → ∀ op, (adcNext t op).isSome = adcSpecLegal t op) ∧
    (∀ t, RtcReachable t → ∀ op, (rtcNext t op).isSome = rtcSpecLegal t op) ∧
    (∀ t, BuzzerReachable t → ∀ op, (buzzerNext t op).isSome = buzzerSpecLegal t op) := by
  refine ⟨?_, ?_, ?_⟩
  · intro t _ op
    cases t <;> cases op <;> rfl
  · intro t _ op
    cases t <;> cases op <;> rfl
  · intro t _ op
    cases t <;> cases op <;> rfl

/-- Witness for `typestate_legal_ops`: the Enabled ADC tag (reached by `enable`
from the configured Disabled handle) admits `measure` and rejects `calibrate`;
similarly the Init RTC tag admits `set_time`, and Running buzzer admits `stop`. -/
theorem typestate_legal_ops_witness :
    (adcNext .enabled .adcMeasure).isSome = adcSpecLegal .enabled .adcMeasure ∧
    (adcNext .enabled .calibrate).isSome = adcSpecLegal .enabled .calibrate ∧
    (rtcNext .rtcInit .setTime).isSome = rtcSpecLegal .rtcInit .setTime ∧
    (buzzerNext .running .stop).isSome = buzzerSpecLegal .running .stop :=
  ⟨typestate_legal_ops.1 .enabled
     (.step .start (show adcNext .disabled .enable = some .enabled from rfl)) .adcMeasure,
   typestate_legal_ops.1 .enabled
     (.step .start (show adcNext .disabled .enable = some .enabled from rfl)) .calibrate,
   typestate_legal_ops.2.1 .rtcInit
     (.step .start (show rtcNext .run .enterInit = some .rtcInit from rfl)) .setTime,
   typestate_legal_ops.2.2 .running
     (.step .start (show buzzerNext .stopped .start = some .running from rfl)) .stop⟩

/-! ## `Adc::<Enabled>::measure` effect trace (C5) -/

/-- Observable hardware effects of `measure()`, in the order the source emits
them: a write of the calibration register (`apply_calibration`), entry/exit of
the `cortex_m::interrupt::free` critical section, the `ADSTART` conversion
start, each `read()` (spin on `EOC`, then read `ADC_DR`, returning the sampled
value), and the final spin until `ADSTART` clears. -/
inductive AdcEvent where
  | writeCalfact (v : ℕ)
  | csEnter
  | startConversion
  | readChannel (v : ℕ)
  | csExit
  | waitAdstartClear
deriving DecidableEq

/-- `src/hal/src/adc.rs`, `pub struct AdcMeasurement`. -/
structure AdcMeasurementR where
  vrefint : ℕ
  tsense : ℕ
deriving DecidableEq

/-- `Adc::<Enabled>::measure`: straight-line translation.  `dr k` is the value
the data register delivers for the `k`-th conversion of the sequence; the
first conversion is `vrefint`, followed immediately by the temperature
sensor. -/
def adcMeasureRun (rtc : RtcRegs) (dr : ℕ → ℕ) : AdcMeasurementR × List AdcEvent :=
  let cal := getAdcCalibration rtc
  let vrefint := dr 0
  let tsense := dr 1
  (⟨vrefint, tsense⟩,
   [.writeCalfact cal, .csEnter, .startConversion,
    .readChannel vrefint, .readChannel tsense, .csExit, .waitAdstartClear])

/-- C5: on every call of `measure()` the effect order is: first the persisted
calibration factor is written to the ADC calibration register, then exactly one
conversion sequence is started, then the reference-voltage channel is read
before the temperature channel inside the critical section (with no other
conversion start in the whole trace, hence none between the pair), and the
trace ends with the spin on the sequence-active (`ADSTART`) flag. -/
theorem adc_measure_effect_order (rtc : RtcRegs) (dr : ℕ → ℕ) :
    adcMeasureRun rtc dr =
      (⟨dr 0, dr 1⟩,
       [.writeCalfact (getAdcCalibration rtc), .csEnter, .startConversion,
        .readChannel (dr 0), .readChannel (dr 1), .csExit, .waitAdstartClear]) ∧
    (adcMeasureRun rtc dr).2.count .startConversion = 1 ∧
    (adcMeasureRun rtc dr).2.getLast? = some .waitAdstartClear := by
  refine ⟨rfl, ?_, rfl⟩
  simp [adcMeasureRun, List.count_cons]

/-! ## RTC read tearing (C6) -/

/-- One second tick of the BCD wall clock (24-hour), used to model the RTC
advancing between two bus reads of `TR`; carries ripple from seconds-units up
to the 23:59:59 → 00:00:00 wrap. -/
def trTick (t : TrReg) : TrReg :=
  if t.su ≠ 9 then { t with su := t.su + 1 }
  else if t.st ≠ 5 then { t with su := 0, st := t.st + 1 }
  else if t.mnu ≠ 9 then { t with su := 0, st := 0, mnu := t.mnu + 1 }
  else if t.mnt ≠ 5 then { t with su := 0, st := 0, mnu := 0, mnt := t.mnt + 1 }
  else if t.ht = 2 ∧ t.hu = 3 then ⟨0, 0, 0, 0, 0, 0⟩
  else if t.hu ≠ 9 then { t with su := 0, st := 0, mnu := 0, mnt := 0, hu := t.hu + 1 }
  else { t with su := 0, st := 0, mnu := 0, mnt := 0, hu := 0, ht := t.ht + 1 }

/-- `Rtc::<Run>::read_tr`: reads `TR` twice (`r0`, `r1`); if the seconds-units
(`su`) bits of the two reads differ, performs and returns a third read (`r2`),
otherwise returns the second read. -/
def rtcReadTr (r0 r1 r2 : TrReg) : TrReg :=
  if r0.su ≠ r1.su then r2 else r1

/-- `Rtc::<Run>::time`: packs the six BCD fields of the chosen `TR` read. -/
def rtcTimeOf (tr : TrReg) : RtcTime :=
  ⟨tr.ht, tr.hu, tr.mnt, tr.mnu, tr.st, tr.su⟩

/-- `time()` as a function of the three potential `TR` reads. -/
def rtcTimeRead (r0 r1 r2 : TrReg) : RtcTime :=
  rtcTimeOf (rtcReadTr r0 r1 r2)

/-- A clock tick always changes the seconds-units digit. -/
theorem trTick_su_ne (t : TrReg) : (trTick t).su ≠ t.su := by
  unfold trTick
  by_cases h9 : t.su = 9
  · rw [if_neg (not_not_intro h9)]
    split_ifs <;> simp [h9]
  · rw [if_pos h9]
    show t.su + 1 ≠ t.su
    omega

/-- C6: for a time retrieval in Run mode, with the second internal read equal
to the first or one clock tick ahead of it (the read bus is far slower than
the RTC clock, so at most one tick can intervene): if the seconds field
(tens and units) of the two reads agrees, the result is the second read; if
the seconds field differs, a third read is performed and its value returned —
the inconsistent pair is never returned. -/
theorem rtc_read_tearing (r0 r1 r2 : TrReg)
    (h : r1 = r0 ∨ r1 = trTick r0) :
    (r1.st = r0.st ∧ r1.su = r0.su → rtcTimeRead r0 r1 r2 = rtcTimeOf r1) ∧
    (¬(r1.st = r0.st ∧ r1.su = r0.su) → rtcTimeRead r0 r1 r2 = rtcTimeOf r2) := by
  rcases h with h | h
  · subst h
    constructor
    · intro _
      unfold rtcTimeRead rtcReadTr
      simp
    · intro hne
      exact absurd ⟨rfl, rfl⟩ hne
  · subst h
    have hsu : (trTick r0).su ≠ r0.su := trTick_su_ne r0
    have hsu' : r0.su ≠ (trTick r0).su := fun he => hsu he.symm
    constructor
    · intro hc
      exact absurd hc.2 hsu
    · intro _
      unfold rtcTimeRead rtcReadTr
      simp [hsu']

/-- Witness for `rtc_read_tearing`: a tick lands between the two reads at
00:00:09 → 00:00:10, so the driver returns the third read. -/
theorem rtc_read_tearing_witness :
    rtcTimeRead ⟨0, 0, 0, 0, 0, 9⟩ (trTick ⟨0, 0, 0, 0, 0, 9⟩) ⟨0, 0, 0, 0, 1, 0⟩ =
      rtcTimeOf ⟨0, 0, 0, 0, 1, 0⟩ :=
  (rtc_read_tearing ⟨0, 0, 0, 0, 0, 9⟩ (trTick ⟨0, 0, 0, 0, 0, 9⟩) ⟨0, 0, 0, 0, 1, 0⟩
    (Or.inr rfl)).2 (by decide)

/-! ## The `wakeup` task and `beep` spawning (C7, `src/src/main.rs`) -/

/-- Observable outcome of one run of the `wakeup` task: how many times
`beep::spawn()` was requested, whether a `beep` instance is active/enqueued
afterwards, and how many error lines were logged.  `wakeup` itself returns `()`
in the source, so no error can propagate out of it; the embedding is
correspondingly total. -/
structure WakeupEffect where
  spawnAttempts : ℕ
  beepActive : Bool
  errorLogs : ℕ
deriving DecidableEq

/-- RTIC `beep::spawn()`: fails iff a `beep` instance is already
active/enqueued (the task has no queue capacity beyond one instance). -/
def beepSpawn (beepActive : Bool) : Except Unit Unit :=
  if beepActive then .error () else .ok ()

/-- The `wakeup` task body: clears the pending flag (no modelled state), reads
the time, and iff the buzzer-enabled flag is set and minute and second are both
zero requests `beep`; an `Err` from `spawn` is only logged
(`defmt::error!`) and discarded. -/
def wakeupTask (buzzerEnabled : Bool) (minute second : ℕ) (beepActive : Bool) :
    WakeupEffect :=
  if buzzerEnabled ∧ minute = 0 ∧ second = 0 then
    match beepSpawn beepActive with
    | .error () => { spawnAttempts := 1, beepActive := beepActive, errorLogs := 1 }
    | .ok () => { spawnAttempts := 1, beepActive := true, errorLogs := 0 }
  else { spawnAttempts := 0, beepActive := beepActive, errorLogs := 0 }

/-- C7: with the buzzer-enabled flag set and the time exactly at the top of an
hour, `wakeup` requests `beep` exactly once; if `beep` is already active the
failure is logged once and discarded (no retry: still exactly one attempt; no
propagation: the task is total) and no second instance appears; if `beep` was
idle it becomes the single active instance.  When the flag is clear or the
time is not the top of the hour, no request is made at all. -/
theorem wakeup_beep_once (e : Bool) (m s : ℕ) (a : Bool) :
    (e = true → m = 0 → s = 0 →
      (wakeupTask e m s a).spawnAttempts = 1 ∧
      (a = true → wakeupTask e m s a = ⟨1, true, 1⟩) ∧
      (a = false → wakeupTask e m s a = ⟨1, true, 0⟩)) ∧
    (e = false ∨ m ≠ 0 ∨ s ≠ 0 →
      (wakeupTask e m s a).spawnAttempts = 0 ∧
      (wakeupTask e m s a).beepActive = a ∧
      (wakeupTask e m s a).errorLogs = 0) ∧
    (wakeupTask e m s a).spawnAttempts ≤ 1 := by
  unfold wakeupTask beepSpawn
  refine ⟨?_, ?_, ?_⟩
  · rintro rfl rfl rfl
    cases a <;> simp
  · intro h
    have hc : ¬(e = true ∧ m = 0 ∧ s = 0) := by
      rcases h with h | h | h <;> simp [h]
    cases a <;> simp [hc]
  · by_cases hc : e = true ∧ m = 0 ∧ s = 0 <;> cases a <;> simp [hc]

/-- Witness for `wakeup_beep_once` at 01:00:00 with the flag set and `beep`
already active: one attempt, one logged error, still a single instance. -/
theorem wakeup_beep_once_witness :
    wakeupTask true 0 0 true = ⟨1, true, 1⟩ ∧
    (wakeupTask true 0 1 true).spawnAttempts = 0 :=
  ⟨((wakeup_beep_once true 0 0 true).1 rfl rfl rfl).2.1 rfl,
   ((wakeup_beep_once true 0 1 true).2.1 (Or.inr (Or.inr (by decide)))).1⟩

/-! ## Buzzer PWM formulas and registers (C8, C9, `src/hal/src/buzzer.rs`) -/

/-- `src/hal/src/system.rs`: `CLK_FREQ = 65536` Hz. -/
def CLK_FREQ : ℕ := 65536

/-- `src/hal/src/buzzer.rs`: `PRESCALER = (CLK_FREQ - 1) as u16`, chosen so the
timer base tick is 1 Hz. -/
def PRESCALER : ℕ := (CLK_FREQ - 1) % U16MOD

/-- `arr_from_frequency(freq)`: `((CLK_FREQ / (freq * (PRESCALER as usize + 1))) - 1) as u16`,
computed in `usize` (wrap at `2^64`; the `- 1` may underflow and wrap), final
cast truncates to `u16`.  A zero divisor (usize multiplication wrapped to 0)
panics, embedded as the error branch. -/
def arr_from_frequency (freq : ℕ) : Except Unit ℕ :=
  let d := freq * (PRESCALER + 1) % U64MOD
  if d = 0 then .error ()
  else .ok ((CLK_FREQ / d + (U64MOD - 1)) % U64MOD % U16MOD)

/-- `ccr_from_duty(duty, aar)`: `(duty as u16 * aar / 100) as u16` — the
multiplication happens at `u16` width (wraps at `2^16`) before the truncating
division by 100. -/
def ccr_from_duty (duty aar : ℕ) : ℕ :=
  duty % U16MOD * aar % U16MOD / 100

/-- C8 counterexample: at `duty = 100`, `arr = 1000` the code computes
`(100 * 1000) mod 2^16 / 100 = 34464 / 100 = 344`, not the claimed
`(100 * 1000 / 100) mod 2^16 = 1000`: the u16 multiplication wraps before the
division, not "modulo 2^16 at the u16 result type". -/
theorem ccr_from_duty_counterexample :
    ccr_from_duty 100 1000 = 344 ∧
    (100 * 1000 / 100) % U16MOD = 1000 ∧
    ccr_from_duty 100 1000 ≠ (100 * 1000 / 100) % U16MOD := by
  refine ⟨by decide, by decide, by decide⟩

/-- C8 (amended): `PRESCALER = clock - 1`; for every `freq ≥ 1` whose `usize`
product `freq * (PRESCALER + 1)` does not overflow,
`arr_from_frequency(freq)` equals `clock / (freq * (prescaler + 1)) - 1`
computed in exact integer arithmetic and reduced modulo `2^16` at the u16
result; and for `duty ≤ 100`, `aar < 2^16`, `ccr_from_duty(duty, aar)` equals
`(duty * aar) mod 2^16 / 100` — the wrap hits the u16 product before the
division, not the result. -/
theorem pwm_register_formulas (freq duty aar : ℕ)
    (hf : 1 ≤ freq) (hof : freq * (PRESCALER + 1) < U64MOD)
    (hd : duty ≤ 100) (ha : aar < U16MOD) :
    PRESCALER = CLK_FREQ - 1 ∧
    arr_from_frequency freq =
      .ok ((((CLK_FREQ : ℤ) / (freq * (PRESCALER + 1)) - 1) % (U16MOD : ℤ)).toNat) ∧
    ccr_from_duty duty aar = duty * aar % U16MOD / 100 := by
  have hP : PRESCALER = 65535 := by decide
  refine ⟨by decide, ?_, ?_⟩
  · unfold arr_from_frequency
    rw [hP] at hof ⊢
    have h64 : (65536 : ℕ) ≤ 65536 * freq := Nat.le_mul_of_pos_right _ (by omega)
    have hdpos : freq * (65535 + 1) ≠ 0 := by positivity
    rw [Nat.mod_eq_of_lt hof]
    rw [if_neg hdpos]
    rcases eq_or_lt_of_le hf with h1 | h2
    · rw [← h1]
      exact congrArg Except.ok (by decide)
    · have hfreq2 : 2 ≤ freq := h2
      have hlt : CLK_FREQ < freq * (65535 + 1) := by
        unfold CLK_FREQ
        calc (65536 : ℕ) < 2 * 65536 := by omega
        _ ≤ freq * 65536 := Nat.mul_le_mul_right _ hfreq2
        _ = freq * (65535 + 1) := by norm_num
      have hz : CLK_FREQ / (freq * (65535 + 1)) = 0 := Nat.div_eq_of_lt hlt
      rw [hz]
      have hzi : (CLK_FREQ : ℤ) / (freq * ((PRESCALER : ℤ) + 1)) = 0 := by
        apply Int.ediv_eq_zero_of_lt
        · unfold CLK_FREQ; norm_num
        · rw [hP]
          unfold CLK_FREQ
          push_cast
          calc (65536 : ℤ) < 2 * 65536 := by norm_num
          _ ≤ freq * 65536 := by
              have : (2 : ℤ) ≤ freq := by exact_mod_cast hfreq2
              nlinarith
          _ = freq * (65535 + 1) := by norm_num
      rw [hP] at hzi
      rw [hzi]
      exact congrArg Except.ok (by decide)
  · unfold ccr_from_duty
    rw [Nat.mod_eq_of_lt (show duty < U16MOD by unfold U16MOD at ha ⊢; omega)]

/-- Witness for `pwm_register_formulas` at `freq = 1000` (the source's own doc
example), `duty = 50`, `aar = 65`. -/
theorem pwm_register_formulas_witness :
    PRESCALER = CLK_FREQ - 1 ∧
    arr_from_frequency 1000 =
      .ok ((((CLK_FREQ : ℤ) / (1000 * (PRESCALER + 1)) - 1) % (U16MOD : ℤ)).toNat) ∧
    ccr_from_duty 50 65 = 50 * 65 % U16MOD / 100 :=
  pwm_register_formulas 1000 50 65 (by decide) (by decide) (by decide) (by decide)

/-- The TIM2 registers the buzzer driver touches: auto-reload (frequency),
capture/compare channel 1 (duty), and the counter-enable bit. -/
structure BuzzerRegs where
  arrReg : ℕ
  ccr1Reg : ℕ
  cen : Bool
deriving DecidableEq

/-- `Buzzer::arr` (defined for any state tag `S`): `self.0.arr.write(...)`. -/
def buzzerSetArr (v : ℕ) (s : BuzzerRegs) : BuzzerRegs :=
  { s with arrReg := v % U16MOD }

/-- `Buzzer::ccr` (defined for any state tag `S`): the body writes
`self.0.arr` — the auto-reload register — and never touches CCR1. -/
def buzzerSetCcr (v : ℕ) (s : BuzzerRegs) : BuzzerRegs :=
  { s with arrReg := v % U16MOD }

/-- C9 at the failing input: `ccr(3)` on a buzzer whose registers hold
`ARR = 5`, `CCR1 = 7` yields `ARR = 3`, `CCR1 = 7` — the capture-compare
register is untouched and the auto-reload register is clobbered, contradicting
the claim (and the method's own documentation); `arr(4)` behaves as claimed. -/
theorem buzzer_ccr_writes_arr :
    buzzerSetCcr 3 ⟨5, 7, false⟩ = ⟨3, 7, false⟩ ∧
    (buzzerSetCcr 3 ⟨5, 7, false⟩).ccr1Reg = 7 ∧
    (buzzerSetCcr 3 ⟨5, 7, false⟩).ccr1Reg ≠ 3 ∧
    (buzzerSetCcr 3 ⟨5, 7, false⟩).arrReg ≠ 5 ∧
    buzzerSetArr 4 ⟨5, 7, false⟩ = ⟨4, 7, false⟩ := by
  refine ⟨by decide, by decide, by decide, by decide, by decide⟩
